import Mathlib

/-!
Verification of the stravastats trajectory analytics engine.

Shallow embedding of `stravastats/utils.py` and `stravastats/core.py`:
timestamps and elevations are rationals (seconds / meters), coordinates are
rationals (decimal degrees) cast to reals where trigonometry is involved,
and Python exceptions are modelled with `Except`.
-/

namespace StravaStats

/-- Python exceptions that the modelled code paths can raise. -/
inductive PyError
  /-- shapely: `LineString` with fewer than 2 coordinate tuples (core.py line 176). -/
  | valueErrorLineString
  /-- Python float division by zero at `core.py` line 180. -/
  | zeroDivisionError
  /-- pandas: `pd.concat` of an empty list raises (core.py line 143). -/
  | valueErrorNoConcat
  /-- geopandas: `GeoDataFrame` over an empty record list has no geometry column (core.py line 213). -/
  | valueErrorGeoDataFrame
  /-- pandas: `Series.idxmax` on an empty series raises (core.py lines 247-248). -/
  | valueErrorIdxmaxEmpty
deriving DecidableEq

/-! ## Elevation gain / loss (`utils.py`, `elev_gain_loss`, lines 6-26)

An elevation series is a list of `(timestamp in seconds, elevation in meters)`
pairs, the pandas series being indexed by its timestamps. -/

/-- Model of `elev_data.rolling('<w>s').mean()` (utils.py line 20): pandas
computes, at each position `i`, the mean of the values at positions `j ≤ i`
whose timestamp lies in the right-closed window `(t_i - w, t_i]`; pandas
requires the index to be monotonic for an offset window. -/
def rollingMean (xs : List (ℚ × ℚ)) (w : ℚ) : List ℚ :=
  (List.range xs.length).map (fun i =>
    let t := (xs.getD i (0, 0)).1
    let win := (xs.take (i + 1)).filter (fun p => decide (t - p.1 < w))
    (win.map (fun p => p.2)).sum / (win.length : ℚ))

/-- Model of `elev_data.diff()` (utils.py lines 23-24): the first entry of the
differenced series is NaN (modelled as `none`), the entry at position `i ≥ 1`
is `s[i] - s[i-1]`; the diff of an empty series is empty. -/
def codeDiff : List ℚ → List (Option ℚ)
  | [] => []
  | x :: r => none :: ((x :: r).zip r).map (fun pr => some (pr.2 - pr.1))

/-- Model of the comprehension `[i for i in elev_data.diff() if i > 0]`
(utils.py line 23); NaN (`none`) never satisfies `i > 0`. -/
def keepPos : List (Option ℚ) → List ℚ
  | [] => []
  | none :: l => keepPos l
  | some v :: l => if 0 < v then v :: keepPos l else keepPos l

/-- Model of the comprehension `[i for i in elev_data.diff() if i < 0]`
(utils.py line 24); NaN (`none`) never satisfies `i < 0`. -/
def keepNeg : List (Option ℚ) → List ℚ
  | [] => []
  | none :: l => keepNeg l
  | some v :: l => if v < 0 then v :: keepNeg l else keepNeg l

/-- Model of `elev_gain_loss(elev_data, smooth_time)` (utils.py lines 6-26):
smooth the series with a trailing time-based rolling mean, then sum the
positive and the negative first discrete differences.  The call in
`core.py` line 179 uses the default `smooth_time=25`. -/
def elevGainLoss (elevData : List (ℚ × ℚ)) (smoothTime : ℚ) : ℚ × ℚ :=
  let sm := rollingMean elevData smoothTime
  ((keepPos (codeDiff sm)).sum, (keepNeg (codeDiff sm)).sum)

/-! Spec-side restatement of the gain/loss computation (spec section 4.4):
first discrete differences of the smoothed series, the first sample
contributing nothing; gain is the sum of the positive ones, loss the sum of
the raw negative ones. -/

/-- First discrete differences of a series; there is one difference per
consecutive pair, so the first sample generates no entry. -/
def specDiffs (s : List ℚ) : List ℚ :=
  (s.zip s.tail).map (fun pr => pr.2 - pr.1)

/-- Sum of all positive first differences of the smoothed series. -/
def specGain (s : List ℚ) : ℚ :=
  ((specDiffs s).filter (fun v => decide (0 < v))).sum

/-- Sum of all raw negative first differences of the smoothed series. -/
def specLoss (s : List ℚ) : ℚ :=
  ((specDiffs s).filter (fun v => decide (v < 0))).sum

/-! ## Great-circle distance (`utils.py`, `haversine`, lines 29-51) -/

/-- Model of Python `math.radians` (utils.py line 42): degrees to radians. -/
noncomputable def radians (x : ℝ) : ℝ := x * (Real.pi / 180)

/-- Model of `haversine(pt1, pt2)` (utils.py lines 29-51): great-circle
distance in kilometers between two `(longitude, latitude)` pairs given in
decimal degrees, on a sphere of radius 6371 km. -/
noncomputable def haversine (pt1 pt2 : ℝ × ℝ) : ℝ :=
  2 * Real.arcsin (Real.sqrt
      (Real.sin ((radians pt2.2 - radians pt1.2) / 2) ^ 2 +
        Real.cos (radians pt1.2) * Real.cos (radians pt2.2) *
          Real.sin ((radians pt2.1 - radians pt1.1) / 2) ^ 2)) * 6371

/-- Rational coordinate pair viewed as a real coordinate pair. -/
def toReal (q : ℚ × ℚ) : ℝ × ℝ := ((q.1 : ℝ), (q.2 : ℝ))

/-! ## Number formatting and contextualization (`core.py`, lines 256-326)

Python formats the percentage with `'%.1f'`, which rounds the value to one
decimal digit with ties going to the even digit.  (The model rounds the exact
real value; Python rounds the nearest binary double, which agrees except on
values whose decimal expansion is perturbed by the binary representation.) -/

open scoped Classical in
/-- Round a real to the nearest integer, ties to the even integer, as C's
`%.0f`-style rounding used by Python string formatting does. -/
noncomputable def roundHalfEvenR (x : ℝ) : ℤ :=
  if x - Int.floor x < 1 / 2 then Int.floor x
  else if 1 / 2 < x - Int.floor x then Int.floor x + 1
  else if Int.floor x % 2 = 0 then Int.floor x else Int.floor x + 1

open scoped Classical in
/-- Model of Python `'%.1f' % x`: the value rounded to one decimal place and
rendered with exactly one digit after the decimal point. -/
noncomputable def fmtOneDecR (x : ℝ) : String :=
  (if roundHalfEvenR (10 * x) < 0 then "-" else "") ++
    toString ((roundHalfEvenR (10 * x)).natAbs / 10) ++ "." ++
    toString ((roundHalfEvenR (10 * x)).natAbs % 10)

open scoped Classical in
/-- Model of `RouteData._fun_dist` (core.py lines 256-276): contextualize a
distance total in km. -/
noncomputable def funDistR (d : ℝ) : String :=
  if d ≤ 2000 then
    fmtOneDecR (d / 2000 * 100) ++ "% of the way to leaving Low Earth Orbit!"
  else if d ≤ 9000 then
    fmtOneDecR (d / 4509 * 100) ++ "% of the way across the US!"
  else if d ≤ 40075 then
    fmtOneDecR (d / 40075 * 100) ++ "% of the way around the Earth!"
  else
    fmtOneDecR (d / 384400 * 100) ++ "% of the way to the moon!"

open scoped Classical in
/-- Model of `RouteData._fun_time` (core.py lines 278-304): contextualize a
time total in hours. -/
noncomputable def funTimeR (t : ℝ) : String :=
  if t ≤ 74 then
    fmtOneDecR (t / 74 * 100) ++ "% as long as the longest hula hooping marathon!"
  else if t ≤ 264.4 then
    fmtOneDecR (t / 264.4 * 100) ++ "% as long as the longest someone has stayed awake!"
  else if t ≤ 992.27 then
    fmtOneDecR (t / 992.27 * 100) ++
      "% as long as it took to finish the world\x27s longest running race! (4,989 km Self-Transcendence Race)"
  else if t ≤ 5000 then
    fmtOneDecR (t / 5000 * 100) ++ "% as long as it took to fabricate a NASA spacesuit!"
  else
    fmtOneDecR (t / 10000 * 100) ++
      "% of the way to becoming an expert! (according to Malcom Gladwell, at least)"

open scoped Classical in
/-- Model of `RouteData._fun_elev` (core.py lines 306-326): contextualize an
elevation total in meters. -/
noncomputable def funElevR (e : ℝ) : String :=
  if e ≤ 8848 then
    fmtOneDecR (e / 8848 * 100) ++ "% of the way up Everest!"
  else if e ≤ 35392 then
    fmtOneDecR (e / 8848) ++ " times up Everest!"
  else if e ≤ 100000 then
    fmtOneDecR (e / 100000 * 100) ++ "% of the way to space!"
  else
    fmtOneDecR (e / 180000 * 100) ++ "% of the way to Low Earth Orbit!"

/-! Spec-side restatement of the distance contextualization (spec section
4.5): an ordered table of bands, each an upper bound, a reference constant
and a message; the selected band is the first whose upper bound is at least
the input, and the output is `100 * value / reference` formatted to one
decimal place, followed by the band message. -/

/-- The distance contextualization bands `(upper bound, reference, message)`
in table order, from the spec section 4.5. -/
noncomputable def distBands : List (ℝ × ℝ × String) :=
  [(2000, 2000, "% of the way to leaving Low Earth Orbit!"),
   (9000, 4509, "% of the way across the US!"),
   (40075, 40075, "% of the way around the Earth!")]

open scoped Classical in
/-- Select the first band whose upper bound is at least `d`; the final
open-ended band (reference 384400, the moon) if none is. -/
noncomputable def selectBand (d : ℝ) : List (ℝ × ℝ × String) → ℝ × String
  | [] => (384400, "% of the way to the moon!")
  | b :: bs => if d ≤ b.1 then (b.2.1, b.2.2) else selectBand d bs

/-- Spec-side distance contextualization: percentage of the selected band's
reference constant, formatted to one decimal place. -/
noncomputable def specFunDistR (d : ℝ) : String :=
  fmtOneDecR (100 * d / (selectBand d distBands).1) ++ (selectBand d distBands).2

/-! ## Route extraction (`core.py`, `RouteData._get_route`, lines 150-183)

A parsed GPX point carries a timestamp (seconds), an elevation (meters) and a
`(longitude, latitude)` position in decimal degrees.  The activity name and
source file identifier attached to every point do not enter any computed
metric and are elided from the model. -/

/-- One parsed track point, in file order. -/
structure PointRec where
  time : ℚ
  elev : ℚ
  lon : ℚ
  lat : ℚ

/-- A Route record as produced by `_get_route` (core.py lines 182-183). -/
structure Route where
  geometry : List (ℚ × ℚ)
  duration : ℚ
  distance : ℝ
  e_gain : ℚ
  avg_spd : ℝ

/-- The keys of the dict literal returned by `_get_route` (core.py lines
182-183), in source order. -/
def getRouteKeys : List String :=
  ["file", "name", "geometry", "duration", "distance", "e_gain", "avg_spd"]

/-- Model of `data_df.index[-1] - data_df.index[0]` (core.py line 177), in
seconds. -/
def durationOf (recs : List PointRec) : ℚ :=
  (recs.getLastD ⟨0, 0, 0, 0⟩).time - (recs.headD ⟨0, 0, 0, 0⟩).time

/-- Model of `sum([haversine(pair[0], pair[1]) for pair in zip(pts[:-1],
pts[1:])])` (core.py line 178): sum of great-circle distances between
consecutive `(longitude, latitude)` pairs, in km. -/
noncomputable def distanceOf (recs : List PointRec) : ℝ :=
  let g := recs.map (fun p => (p.lon, p.lat))
  ((g.zip g.tail).map (fun pr => haversine (toReal pr.1) (toReal pr.2))).sum

/-- The Route record built by the non-empty branch of `_get_route` (core.py
lines 173-183).  `e_loss` is computed at line 179 but the dict literal at
lines 182-183 does not include it.  `avg_spd` is `distance /
(duration.total_seconds() / 3600)` (line 180). -/
noncomputable def mkRoute (recs : List PointRec) : Route :=
  { geometry := recs.map (fun p => (p.lon, p.lat))
    duration := durationOf recs
    distance := distanceOf recs
    e_gain := (elevGainLoss (recs.map (fun p => (p.time, p.elev))) 25).1
    avg_spd := distanceOf recs / ((durationOf recs : ℝ) / 3600) }

/-- Model of `RouteData._get_route` (core.py lines 150-183).  An empty point
extraction returns `None` (`.ok none`, no exception); a single point makes
`LineString` raise; a zero duration makes the float division at line 180
raise `ZeroDivisionError`; otherwise the Route record is produced. -/
noncomputable def getRoute (recs : List PointRec) : Except PyError (Option Route) :=
  if recs.isEmpty then .ok none
  else if recs.length < 2 then .error .valueErrorLineString
  else if durationOf recs = 0 then .error .zeroDivisionError
  else .ok (some (mkRoute recs))

/-- Model of `get_routes` up to line 208: map `_get_route` over the chosen
files (a raised exception in any worker is re-raised by `result.get()`) and
drop the `None` results of empty files. -/
noncomputable def getRoutesFiltered (files : List (List PointRec)) :
    Except PyError (List Route) :=
  (files.mapM getRoute).map (fun l => l.filterMap id)

/-- Model of `get_routes` (core.py lines 185-215): wrap the filtered route
list in a `GeoDataFrame`; over an empty record list the frame has no
`geometry` column and its construction raises. -/
noncomputable def getRoutes (files : List (List PointRec)) :
    Except PyError (List Route) :=
  match getRoutesFiltered files with
  | .error e => .error e
  | .ok rs => if rs.isEmpty then .error .valueErrorGeoDataFrame else .ok rs

/-- Model of `PointData.get_data` (core.py lines 116-146) over the per-file
point lists of the chosen files: `pd.concat` of an empty list raises, the
concatenation of one or more per-file results succeeds. -/
def getData (files : List (List PointRec)) : Except PyError (List PointRec) :=
  if files.isEmpty then .error .valueErrorNoConcat else .ok files.flatten

/-! ## Aggregation (`core.py`, `RouteData.route_stats`, lines 217-254) -/

open scoped Classical in
/-- Position of the first occurrence of the maximum of a list, as pandas
`Series.idxmax` returns it for a default integer index (first occurrence
wins ties). -/
noncomputable def idxmaxFirst {α : Type} [LinearOrder α] : List α → ℕ
  | [] => 0
  | [_] => 0
  | x :: y :: t =>
    if x < (y :: t).getD (idxmaxFirst (y :: t)) x then idxmaxFirst (y :: t) + 1
    else 0

/-- Column-wise means of the numeric route columns, as `routes.mean()`
(core.py line 250) produces them. -/
structure RouteAverages where
  duration : ℚ
  distance : ℝ
  e_gain : ℚ
  avg_spd : ℝ

/-- The dict returned by `route_stats` (core.py lines 252-254). -/
structure RouteStatsRec where
  total_dist : ℝ
  total_time : ℚ
  total_elev : ℚ
  fun_dist : String
  fun_time : String
  fun_elev : String
  longest_activ : Route
  most_elev : Route
  average : RouteAverages

/-- Model of `route_stats` (core.py lines 217-254) over an already parsed
route collection.  On an empty collection `routes['distance'].idxmax()`
(line 247) raises `ValueError` before any result dict is built, so no
statistics record is ever returned for an empty Dataset. -/
noncomputable def routeStats : List Route → Except PyError RouteStatsRec
  | [] => .error .valueErrorIdxmaxEmpty
  | r0 :: rest =>
    .ok { total_dist := (((r0 :: rest).map Route.distance).sum : ℝ)
          total_time := ((r0 :: rest).map Route.duration).sum
          total_elev := ((r0 :: rest).map Route.e_gain).sum
          fun_dist := funDistR (((r0 :: rest).map Route.distance).sum)
          fun_time := funTimeR ((((r0 :: rest).map Route.duration).sum : ℝ) / 3600)
          fun_elev := funElevR ((((r0 :: rest).map Route.e_gain).sum : ℝ))
          longest_activ :=
            (r0 :: rest).getD (idxmaxFirst ((r0 :: rest).map Route.distance)) r0
          most_elev :=
            (r0 :: rest).getD (idxmaxFirst ((r0 :: rest).map Route.e_gain)) r0
          average :=
            { duration := ((r0 :: rest).map Route.duration).sum / ((r0 :: rest).length : ℚ)
              distance := (((r0 :: rest).map Route.distance).sum : ℝ) / ((r0 :: rest).length : ℝ)
              e_gain := ((r0 :: rest).map Route.e_gain).sum / ((r0 :: rest).length : ℚ)
              avg_spd := (((r0 :: rest).map Route.avg_spd).sum : ℝ) / ((r0 :: rest).length : ℝ) } }

/-! ## Launch-location clustering (`core.py`, `favorite_launches`, lines 328-362)

The DBSCAN call itself (line 347) is external; the model takes its output:
the per-point integer label list `db` (`-1` marks noise, clusters are
labelled `0, 1, …` in discovery order) aligned with the contributed points
`starts` (each a `(longitude, latitude)` pair). -/

open scoped Classical in
/-- Model of `p if haversine(*p) < 0.25 else p[:1]` (core.py line 341): both
endpoints of a route when start and end are within 0.25 km of each other,
otherwise only the first point. -/
noncomputable def startsOf (p : (ℚ × ℚ) × (ℚ × ℚ)) : List (ℚ × ℚ) :=
  if haversine (toReal p.1) (toReal p.2) < 0.25 then [p.1, p.2] else [p.1]

open scoped Classical in
/-- Model of the `starts` array (core.py lines 338-341) built from each
route's `(first point, last point)` endpoint pair. -/
noncomputable def clusterInput (endpoints : List ((ℚ × ℚ) × (ℚ × ℚ))) :
    List (ℚ × ℚ) :=
  (endpoints.map startsOf).flatten

/-- The non-noise labels, `db[db != -1]` (core.py line 350). -/
def nonNoise (db : List ℤ) : List ℤ :=
  db.filter (fun x => decide (x ≠ -1))

/-- The sorted distinct values of a list, as the first component of
`np.unique` (core.py line 350) returns them. -/
def uniqueSorted (l : List ℤ) : List ℤ :=
  l.dedup.insertionSort (· ≤ ·)

/-- The occurrence counts aligned with `uniqueSorted`, as the
`return_counts=True` component of `np.unique` (core.py line 350). -/
def countsOf (db : List ℤ) : List ℕ :=
  (uniqueSorted (nonNoise db)).map (fun l => (nonNoise db).count l)

/-- Comparison used to model `counts.argsort()`: ascending by count, equal
counts kept in index order (numpy's default sort runs a stable insertion
sort on arrays as short as these, so ties keep their original order). -/
abbrev argsortRel (c : List ℕ) (i j : ℕ) : Prop :=
  c.getD i 0 < c.getD j 0 ∨ (c.getD i 0 = c.getD j 0 ∧ i ≤ j)

instance argsortRelDecidable (c : List ℕ) : DecidableRel (argsortRel c) :=
  fun i j =>
    inferInstanceAs
      (Decidable (c.getD i 0 < c.getD j 0 ∨ (c.getD i 0 = c.getD j 0 ∧ i ≤ j)))

instance argsortRelTotal (c : List ℕ) : IsTotal ℕ (argsortRel c) where
  total i j := by
    rcases lt_trichotomy (c.getD i 0) (c.getD j 0) with h | h | h
    · exact Or.inl (Or.inl h)
    · rcases le_total i j with h2 | h2
      · exact Or.inl (Or.inr ⟨h, h2⟩)
      · exact Or.inr (Or.inr ⟨h.symm, h2⟩)
    · exact Or.inr (Or.inl h)

instance argsortRelTrans (c : List ℕ) : IsTrans ℕ (argsortRel c) where
  trans i j k hij hjk := by
    rcases hij with h1 | ⟨h1, h1i⟩ <;> rcases hjk with h2 | ⟨h2, h2i⟩
    · exact Or.inl (h1.trans h2)
    · exact Or.inl (h2 ▸ h1)
    · exact Or.inl (h1 ▸ h2)
    · exact Or.inr ⟨h1.trans h2, h1i.trans h2i⟩

/-- Model of `counts.argsort()` (core.py line 351): the positions `0 …
len(counts) - 1` sorted ascendingly by count, ties in position order. -/
def argsortStable (c : List ℕ) : List ℕ :=
  (List.range c.length).insertionSort (argsortRel c)

/-- Model of `label_top = counts.argsort()[::-1][:n]` (core.py line 351).
DBSCAN labels clusters `0 … k-1`, and `np.unique` returns them sorted, so a
position into `counts` is also the cluster label it counts. -/
def labelTop (db : List ℤ) (n : ℕ) : List ℕ :=
  (argsortStable (countsOf db)).reverse.take n

/-- Model of `starts[db == l, :]` (core.py line 356): the points whose
aligned label equals `l`. -/
def membersOf (starts : List (ℚ × ℚ)) (db : List ℤ) (l : ℤ) : List (ℚ × ℚ) :=
  ((starts.zip db).filter (fun p => decide (p.2 = l))).map Prod.fst

/-- Model of the centroid computation (core.py lines 356-360):
`[sum_x / length, sum_y / length]` over a cluster's member points, with `x`
the longitude column and `y` the latitude column. -/
def centroidOf (starts : List (ℚ × ℚ)) (db : List ℤ) (l : ℤ) : ℚ × ℚ :=
  (((membersOf starts db l).map Prod.fst).sum / ((membersOf starts db l).length : ℚ),
   ((membersOf starts db l).map Prod.snd).sum / ((membersOf starts db l).length : ℚ))

/-- Model of `favorite_launches(n)` (core.py lines 349-362) from the DBSCAN
labels onward: centroids of the top clusters in rank order. -/
def favoriteLaunches (n : ℕ) (db : List ℤ) (starts : List (ℚ × ℚ)) :
    List (ℚ × ℚ) :=
  (labelTop db n).map (fun i => centroidOf starts db (Int.ofNat i))

/-- Remove the noise-labelled points from an aligned `(starts, db)` pair. -/
def dropNoise (starts : List (ℚ × ℚ)) (db : List ℤ) :
    List (ℚ × ℚ) × List ℤ :=
  (((starts.zip db).filter (fun p => decide (p.2 ≠ -1))).map Prod.fst,
   ((starts.zip db).filter (fun p => decide (p.2 ≠ -1))).map Prod.snd)

/-- A concrete two-point file, ten seconds and one degree of longitude and
latitude between its points, used as a witness input. -/
def demoFile : List PointRec := [⟨0, 100, 0, 0⟩, ⟨10, 101, 1, 1⟩]

/-! ## Helper lemmas -/

theorem keepPos_map_some (l : List ℚ) :
    keepPos (l.map (fun v => some v)) = l.filter (fun v => decide (0 < v)) := by
  induction l with
  | nil => rfl
  | cons x r ih =>
    simp only [List.map_cons, keepPos, List.filter_cons]
    by_cases h : 0 < x
    · simp [h, ih]
    · simp [h, ih]

theorem keepNeg_map_some (l : List ℚ) :
    keepNeg (l.map (fun v => some v)) = l.filter (fun v => decide (v < 0)) := by
  induction l with
  | nil => rfl
  | cons x r ih =>
    simp only [List.map_cons, keepNeg, List.filter_cons]
    by_cases h : x < 0
    · simp [h, ih]
    · simp [h, ih]

theorem codeDiff_eq (s : List ℚ) :
    codeDiff s = match s with
      | [] => []
      | _ :: _ => none :: (specDiffs s).map (fun v => some v) := by
  cases s with
  | nil => rfl
  | cons x r => simp [codeDiff, specDiffs, List.map_map]

theorem keepPos_codeDiff (s : List ℚ) :
    keepPos (codeDiff s) = (specDiffs s).filter (fun v => decide (0 < v)) := by
  rw [codeDiff_eq]
  cases s with
  | nil => rfl
  | cons x r => simpa [keepPos] using keepPos_map_some (specDiffs (x :: r))

theorem keepNeg_codeDiff (s : List ℚ) :
    keepNeg (codeDiff s) = (specDiffs s).filter (fun v => decide (v < 0)) := by
  rw [codeDiff_eq]
  cases s with
  | nil => rfl
  | cons x r => simpa [keepNeg] using keepNeg_map_some (specDiffs (x :: r))

theorem sum_filter_pos_nonneg (l : List ℚ) :
    0 ≤ (l.filter (fun v => decide (0 < v))).sum := by
  induction l with
  | nil => simp
  | cons x r ih =>
    rw [List.filter_cons]
    by_cases h : 0 < x
    · rw [if_pos (by simpa using h), List.sum_cons]
      linarith
    · rw [if_neg (by simpa using h)]
      exact ih

theorem sum_filter_neg_nonpos (l : List ℚ) :
    (l.filter (fun v => decide (v < 0))).sum ≤ 0 := by
  induction l with
  | nil => simp
  | cons x r ih =>
    rw [List.filter_cons]
    by_cases h : x < 0
    · rw [if_pos (by simpa using h), List.sum_cons]
      linarith
    · rw [if_neg (by simpa using h)]
      exact ih

theorem elevGainLoss_fst_nonneg (xs : List (ℚ × ℚ)) (w : ℚ) :
    0 ≤ (elevGainLoss xs w).1 := by
  simp only [elevGainLoss, keepPos_codeDiff]
  exact sum_filter_pos_nonneg _

theorem elevGainLoss_snd_nonpos (xs : List (ℚ × ℚ)) (w : ℚ) :
    (elevGainLoss xs w).2 ≤ 0 := by
  simp only [elevGainLoss, keepNeg_codeDiff]
  exact sum_filter_neg_nonpos _

theorem sin_sq_sub_comm (u v : ℝ) :
    Real.sin ((u - v) / 2) ^ 2 = Real.sin ((v - u) / 2) ^ 2 := by
  rw [show (u - v) / 2 = -((v - u) / 2) by ring, Real.sin_neg]
  ring

theorem haversine_comm (a b : ℝ × ℝ) : haversine a b = haversine b a := by
  unfold haversine
  rw [sin_sq_sub_comm (radians b.2) (radians a.2),
    sin_sq_sub_comm (radians b.1) (radians a.1),
    mul_comm (Real.cos (radians a.2)) (Real.cos (radians b.2))]

theorem haversine_self (a : ℝ × ℝ) : haversine a a = 0 := by
  unfold haversine
  simp

theorem getRoute_demoFile : getRoute demoFile = .ok (some (mkRoute demoFile)) := by
  norm_num [getRoute, demoFile, durationOf]

theorem getRoutesFiltered_demoFile :
    getRoutesFiltered [demoFile] = .ok [mkRoute demoFile] := by
  norm_num [getRoutesFiltered, List.mapM, List.mapM.loop, getRoute, demoFile, durationOf,
    Except.map, Except.bind, Except.pure, List.filterMap_cons, id_eq]

theorem mapM_except_ok_loop {α β ε : Type} (f : α → Except ε β) :
    ∀ (l : List α) (acc out : List β),
      List.mapM.loop f l acc = .ok out → ∀ b ∈ out, (∃ a ∈ l, f a = .ok b) ∨ b ∈ acc := by
  intro l
  induction l with
  | nil =>
    intro acc out h b hb
    simp only [List.mapM.loop] at h
    have : acc.reverse = out := by simpa [pure, Except.pure] using h
    right
    rw [← this] at hb
    simpa using hb
  | cons a as ih =>
    intro acc out h b hb
    simp only [List.mapM.loop] at h
    cases hfa : f a with
    | error e => rw [hfa] at h; simp [Bind.bind, Except.bind] at h
    | ok y =>
      rw [hfa] at h
      simp only [Bind.bind, Except.bind] at h
      rcases ih (y :: acc) out h b hb with ⟨a2, ha2, hok⟩ | hacc
      · exact Or.inl ⟨a2, List.mem_cons_of_mem _ ha2, hok⟩
      · rcases List.mem_cons.mp hacc with hby | hbacc
        · exact Or.inl ⟨a, List.mem_cons_self a as, by rw [hfa, hby]⟩
        · exact Or.inr hbacc

theorem mapM_except_ok_mem {α β ε : Type} (f : α → Except ε β)
    (l : List α) (out : List β) (h : l.mapM f = .ok out) :
    ∀ b ∈ out, ∃ a ∈ l, f a = .ok b := by
  intro b hb
  have := mapM_except_ok_loop f l [] out (by simpa [List.mapM] using h) b hb
  simpa using this

/-! ## Claims -/

/-- C5: for every (monotonically time-indexed) elevation series,
`elev_gain_loss` first applies the trailing moving average over the smoothing
window and then takes the first discrete difference of the smoothed series;
the returned gain is the sum of all positive differences, the returned loss
is the sum of all raw negative differences (a non-positive number, negative
whenever any descent exists), and the first sample of the series contributes
no difference to either (the spec-side sums range over consecutive pairs
only). -/
theorem elev_gain_loss_spec (xs : List (ℚ × ℚ)) (w : ℚ)
    (_hmono : (xs.map Prod.fst).Chain' (· ≤ ·)) :
    elevGainLoss xs w =
      (specGain (rollingMean xs w), specLoss (rollingMean xs w)) ∧
    0 ≤ (elevGainLoss xs w).1 ∧ (elevGainLoss xs w).2 ≤ 0 := by
  refine ⟨?_, elevGainLoss_fst_nonneg xs w, elevGainLoss_snd_nonpos xs w⟩
  simp only [elevGainLoss, keepPos_codeDiff, keepNeg_codeDiff, specGain, specLoss]

/-- Witness for C5 at a concrete two-sample series. -/
theorem elev_gain_loss_spec_witness :
    elevGainLoss [(0, 5), (10, 8)] 25 =
      (specGain (rollingMean [(0, 5), (10, 8)] 25),
        specLoss (rollingMean [(0, 5), (10, 8)] 25)) ∧
    0 ≤ (elevGainLoss [(0, 5), (10, 8)] 25).1 ∧
    (elevGainLoss [(0, 5), (10, 8)] 25).2 ≤ 0 :=
  elev_gain_loss_spec [(0, 5), (10, 8)] 25 (by norm_num)

/-- C1 counterexample: the dict literal returned by `_get_route` (core.py
lines 182-183) has no `e_loss` key, and the elevation loss computed at line
179 is a negative number, not a non-negative magnitude: the claim that the
Route record contains both a gain and a loss attribute, both non-negative,
is false. -/
theorem route_record_lacks_e_loss_cex :
    "e_loss" ∉ getRouteKeys ∧ (elevGainLoss [(0, 10), (30, 4)] 25).2 < 0 := by
  constructor
  · decide
  · norm_num [elevGainLoss, rollingMean, codeDiff, keepNeg, List.range_succ]

/-- C1 (amended): for every file whose point extraction yields a sequence
that produces a Route, the Route record contains an elevation gain
attribute, and that gain is non-negative; the elevation loss is computed as
a non-positive value but is not included in the Route record. -/
theorem route_e_gain_nonneg_e_loss_dropped (recs : List PointRec) (r : Route)
    (h : getRoute recs = .ok (some r)) :
    0 ≤ r.e_gain ∧ "e_gain" ∈ getRouteKeys ∧ "e_loss" ∉ getRouteKeys := by
  refine ⟨?_, by decide, by decide⟩
  unfold getRoute at h
  split_ifs at h with h1 h2 h3
  · simp at h
  · simp only [Except.ok.injEq, Option.some.injEq] at h
    rw [← h]
    exact elevGainLoss_fst_nonneg _ 25

/-- Witness for C1 (amended) at the concrete two-point file. -/
theorem route_e_gain_nonneg_witness :
    0 ≤ (mkRoute demoFile).e_gain ∧
    "e_gain" ∈ getRouteKeys ∧ "e_loss" ∉ getRouteKeys :=
  route_e_gain_nonneg_e_loss_dropped demoFile (mkRoute demoFile) getRoute_demoFile

/-- C4 counterexample: a two-point file whose points carry the same
timestamp has duration zero, and route extraction evaluates
`distance / (duration.total_seconds() / 3600)` anyway (core.py line 180):
the division by zero occurs and raises, so the claim that no division by
zero occurs in route extraction is false. -/
theorem avg_spd_zero_duration_cex :
    getRoute [⟨0, 100, 0, 0⟩, ⟨0, 101, 1, 1⟩] = .error .zeroDivisionError := by
  norm_num [getRoute, durationOf]

/-- C4 (amended): for every route that extraction actually produces, the
average speed equals the route distance in kilometers divided by the route
duration in hours, and such a route always has non-zero duration; when the
duration is zero the unguarded division at core.py line 180 raises
`ZeroDivisionError` instead of skipping the computation, so no Route with a
zero duration is ever produced. -/
theorem avg_spd_formula (recs : List PointRec) (r : Route)
    (h : getRoute recs = .ok (some r)) :
    r.avg_spd = r.distance / ((r.duration : ℝ) / 3600) ∧ r.duration ≠ 0 := by
  unfold getRoute at h
  split_ifs at h with h1 h2 h3
  · simp at h
  · simp only [Except.ok.injEq, Option.some.injEq] at h
    subst h
    exact ⟨rfl, h3⟩

/-- Witness for C4 (amended) at the concrete two-point file. -/
theorem avg_spd_formula_witness :
    (mkRoute demoFile).avg_spd =
      (mkRoute demoFile).distance / (((mkRoute demoFile).duration : ℝ) / 3600) ∧
    (mkRoute demoFile).duration ≠ 0 :=
  avg_spd_formula demoFile (mkRoute demoFile) getRoute_demoFile

/-- C3: `route_stats` applied to an empty Dataset fails with an error
(`routes['distance'].idxmax()` raises `ValueError` on an empty series) and
never returns a statistics record, in particular no record of zero-valued
totals, maxima or means. -/
theorem route_stats_empty_fails :
    routeStats [] = .error .valueErrorIdxmaxEmpty ∧
    ∀ s, routeStats [] ≠ .ok s :=
  ⟨rfl, fun _ h => Except.noConfusion h⟩

/-- C6: `haversine` is symmetric in its two points, and the distance from
any point to itself is zero. -/
theorem haversine_symm_and_self :
    (∀ a b : ℝ × ℝ, haversine a b = haversine b a) ∧
    (∀ a : ℝ × ℝ, haversine a a = 0) :=
  ⟨haversine_comm, haversine_self⟩

/-- C9: a file whose point extraction yields zero points produces no Route
and raises no error (`_get_route` returns `None`), and every Route in the
collection built by `get_routes` comes from a non-empty file whose
extraction produced exactly that Route record with computed metrics. -/
theorem empty_file_silently_dropped :
    getRoute [] = .ok none ∧
    ∀ (files : List (List PointRec)) (rs : List Route),
      getRoutesFiltered files = .ok rs →
      ∀ r ∈ rs, ∃ f ∈ files, f ≠ [] ∧ getRoute f = .ok (some r) := by
  refine ⟨rfl, ?_⟩
  intro files rs h r hr
  unfold getRoutesFiltered at h
  cases hm : files.mapM getRoute with
  | error e => rw [hm] at h; simp [Except.map] at h
  | ok l =>
    rw [hm] at h
    simp only [Except.map, Except.ok.injEq] at h
    rw [← h] at hr
    obtain ⟨o, ho, hoe⟩ := List.mem_filterMap.mp hr
    rw [id_eq] at hoe
    subst hoe
    obtain ⟨f, hf, hok⟩ := mapM_except_ok_mem getRoute files l hm (some r) ho
    refine ⟨f, hf, ?_, hok⟩
    intro hnil
    rw [hnil] at hok
    exact Option.noConfusion (Except.ok.inj hok)

/-- Witness for C9: a batch of one non-empty file yields exactly its Route. -/
theorem empty_file_silently_dropped_witness :
    ∀ r ∈ [mkRoute demoFile],
      ∃ f ∈ [demoFile], f ≠ [] ∧ getRoute f = .ok (some r) :=
  empty_file_silently_dropped.2 [demoFile] [mkRoute demoFile]
    getRoutesFiltered_demoFile

/-- C10: with zero files selected, `get_data` raises (`pd.concat` of an
empty list), and `get_routes` fails to construct its result whenever no
file yields a route (the `GeoDataFrame` over an empty record list raises). -/
theorem empty_selection_raises :
    getData [] = .error .valueErrorNoConcat ∧
    ∀ files, getRoutesFiltered files = .ok [] →
      getRoutes files = .error .valueErrorGeoDataFrame := by
  refine ⟨rfl, ?_⟩
  intro files h
  unfold getRoutes
  rw [h]
  rfl

/-- C7: `_fun_dist` selects the first contextualization band whose upper
bound is at least the input (thresholds 2000, 9000, 40075, with reference
constants 2000, 4509, 40075, and 384400 for the final open-ended band), and
formats `100 * d / reference` to one decimal place as a percentage. -/
theorem fun_dist_band_selection (d : ℝ) : funDistR d = specFunDistR d := by
  unfold funDistR specFunDistR distBands
  simp only [selectBand]
  split_ifs with h1 h2 h3
  · rw [show d / 2000 * 100 = 100 * d / 2000 by ring]
  · rw [show d / 4509 * 100 = 100 * d / 4509 by ring]
  · rw [show d / 40075 * 100 = 100 * d / 40075 by ring]
  · rw [show d / 384400 * 100 = 100 * d / 384400 by ring]

/-- Witness for C10 at a batch of one empty file. -/
theorem empty_selection_raises_witness :
    getRoutes [[]] = .error .valueErrorGeoDataFrame :=
  empty_selection_raises.2 [[]]
    (by norm_num [getRoutesFiltered, List.mapM, List.mapM.loop, getRoute,
      Except.map, Except.bind, Except.pure])

/-- C8: for every route endpoint pair `(first, last)` in the Dataset, the
first point contributes to the clustering input, and the last point
contributes if and only if the great-circle distance between the first and
the last point is below 0.25 km. -/
theorem launch_points_contribution (eps : List ((ℚ × ℚ) × (ℚ × ℚ)))
    (f l : ℚ × ℚ) (h : (f, l) ∈ eps) :
    f ∈ clusterInput eps ∧
    (l ∈ startsOf (f, l) ↔ haversine (toReal f) (toReal l) < 0.25) := by
  constructor
  · apply List.mem_flatten.mpr
    refine ⟨startsOf (f, l), List.mem_map_of_mem _ h, ?_⟩
    unfold startsOf
    split_ifs <;> simp
  · constructor
    · intro hl
      by_contra hge
      unfold startsOf at hl
      rw [if_neg hge] at hl
      have hlf : l = f := by simpa using hl
      rw [hlf, haversine_self] at hge
      exact hge (by norm_num)
    · intro hlt
      unfold startsOf
      rw [if_pos hlt]
      simp

/-- Witness for C8 at a single round-trip endpoint pair. -/
theorem launch_points_contribution_witness :
    ((0 : ℚ), (0 : ℚ)) ∈ clusterInput [(((0 : ℚ), (0 : ℚ)), ((0 : ℚ), (0 : ℚ)))] ∧
    (((0 : ℚ), (0 : ℚ)) ∈ startsOf (((0 : ℚ), (0 : ℚ)), ((0 : ℚ), (0 : ℚ))) ↔
      haversine (toReal ((0 : ℚ), (0 : ℚ))) (toReal ((0 : ℚ), (0 : ℚ))) < 0.25) :=
  launch_points_contribution _ _ _ (by simp)

/-- C2 counterexample: two clusters of equal size (labels 0 and 1, two
members each).  `counts.argsort()[::-1]` reverses a stable ascending sort,
so the size tie is broken in favor of the later-discovered cluster: the
result lists cluster 1's centroid `(7, 8)` before cluster 0's `(0, 0)`,
not in first-discovered order. -/
theorem favorite_launches_tie_order_cex :
    favoriteLaunches 2 [0, 0, 1, 1] [(0, 0), (0, 0), (7, 8), (7, 8)] =
      [(7, 8), (0, 0)] ∧
    ([((7 : ℚ), (8 : ℚ)), ((0 : ℚ), (0 : ℚ))] : List (ℚ × ℚ)) ≠
      [((0 : ℚ), (0 : ℚ)), ((7 : ℚ), (8 : ℚ))] := by
  constructor
  · norm_num [favoriteLaunches, labelTop, argsortStable, countsOf, uniqueSorted, nonNoise,
      centroidOf, membersOf, List.insertionSort, List.orderedInsert, argsortRel,
      List.range_succ, List.dedup_cons_of_mem, List.dedup_cons_of_not_mem]
  · norm_num

theorem zip_filter_snd_map_snd (P : ℤ → Bool) :
    ∀ (s : List (ℚ × ℚ)) (d : List ℤ), s.length = d.length →
      ((s.zip d).filter (fun p => P p.2)).map Prod.snd = d.filter P := by
  intro s
  induction s with
  | nil =>
    intro d h
    cases d with
    | nil => rfl
    | cons b t => simp at h
  | cons a s2 ih =>
    intro d h
    cases d with
    | nil => simp at h
    | cons b t =>
      simp only [List.zip_cons_cons, List.filter_cons]
      by_cases hb : P b = true
      · simp only [hb, if_pos, List.map_cons]
        rw [ih t (by simp at h; exact h)]
      · simp only [hb, Bool.false_eq_true, if_false]
        exact ih t (by simp at h; exact h)

theorem dropNoise_zip (starts : List (ℚ × ℚ)) (db : List ℤ) :
    ((dropNoise starts db).1).zip ((dropNoise starts db).2) =
      (starts.zip db).filter (fun p => decide (p.2 ≠ -1)) :=
  (List.zip_of_prod rfl rfl).symm

theorem ofNat_ne_negOne (i : ℕ) : Int.ofNat i ≠ -1 := by
  have : (0 : ℤ) ≤ Int.ofNat i := Int.ofNat_nonneg i
  omega

theorem membersOf_dropNoise (starts : List (ℚ × ℚ)) (db : List ℤ) (i : ℕ) :
    membersOf (dropNoise starts db).1 (dropNoise starts db).2 (Int.ofNat i) =
      membersOf starts db (Int.ofNat i) := by
  unfold membersOf
  rw [dropNoise_zip, List.filter_filter]
  congr 1
  apply List.filter_congr
  intro a _
  by_cases h : a.2 = Int.ofNat i
  · rw [decide_eq_true h, decide_eq_true (show a.2 ≠ -1 by rw [h]; exact ofNat_ne_negOne i)]
    rfl
  · rw [decide_eq_false h]
    simp

theorem nonNoise_idem (d : List ℤ) : nonNoise (nonNoise d) = nonNoise d := by
  unfold nonNoise
  rw [List.filter_filter]
  simp [Bool.and_self]

theorem dropNoise_snd (starts : List (ℚ × ℚ)) (db : List ℤ)
    (hlen : starts.length = db.length) :
    (dropNoise starts db).2 = nonNoise db := by
  unfold dropNoise nonNoise
  exact zip_filter_snd_map_snd (fun x => decide (x ≠ -1)) starts db hlen

theorem count_nonNoise (d : List ℤ) (i : ℤ) (hi : 0 ≤ i) :
    (nonNoise d).count i = d.count i := by
  induction d with
  | nil => rfl
  | cons b t ih =>
    unfold nonNoise at ih ⊢
    rw [List.filter_cons]
    by_cases hb : b = -1
    · have : b ≠ i := by omega
      rw [if_neg (by simp [hb]), List.count_cons, ih]
      simp [this]
    · rw [if_pos (by simp [hb]), List.count_cons, List.count_cons, ih]

theorem members_length_eq_count (starts : List (ℚ × ℚ)) (db : List ℤ)
    (hlen : starts.length = db.length) (i : ℤ) :
    (membersOf starts db i).length = db.count i := by
  unfold membersOf
  rw [List.length_map]
  have h1 := congrArg List.length
    (zip_filter_snd_map_snd (fun x => decide (x = i)) starts db hlen)
  rw [List.length_map] at h1
  rw [h1, List.count_eq_countP, List.countP_eq_length_filter]
  congr 1

theorem labelTop_length (db : List ℤ) (n : ℕ) :
    (labelTop db n).length = min n (countsOf db).length := by
  simp [labelTop, argsortStable]

theorem labelTop_pairwise (db : List ℤ) (n : ℕ) :
    (labelTop db n).Pairwise (fun i j => argsortRel (countsOf db) j i) := by
  unfold labelTop
  apply List.Pairwise.sublist (List.take_sublist n _)
  apply List.pairwise_reverse.mpr
  exact List.sorted_insertionSort (argsortRel (countsOf db)) (List.range (countsOf db).length)

theorem labelTop_mem_lt (db : List ℤ) (n : ℕ) (i : ℕ) (hi : i ∈ labelTop db n) :
    i < (countsOf db).length := by
  unfold labelTop at hi
  have h1 : i ∈ (argsortStable (countsOf db)).reverse := List.mem_of_mem_take hi
  rw [List.mem_reverse] at h1
  unfold argsortStable at h1
  rw [List.mem_insertionSort] at h1
  exact List.mem_range.mp h1

theorem countsOf_dropNoise (starts : List (ℚ × ℚ)) (db : List ℤ)
    (hlen : starts.length = db.length) :
    countsOf (dropNoise starts db).2 = countsOf db := by
  unfold countsOf
  rw [dropNoise_snd starts db hlen, nonNoise_idem]

theorem favoriteLaunches_dropNoise (n : ℕ) (db : List ℤ) (starts : List (ℚ × ℚ))
    (hlen : starts.length = db.length) :
    favoriteLaunches n db starts =
      favoriteLaunches n (dropNoise starts db).2 (dropNoise starts db).1 := by
  unfold favoriteLaunches labelTop
  rw [countsOf_dropNoise starts db hlen]
  have hf : (fun i : ℕ =>
        centroidOf (dropNoise starts db).1 (dropNoise starts db).2 (Int.ofNat i)) =
      (fun i : ℕ => centroidOf starts db (Int.ofNat i)) := by
    funext i
    unfold centroidOf
    rw [membersOf_dropNoise starts db i]
  rw [hf]

theorem countsOf_getD_members (starts : List (ℚ × ℚ)) (db : List ℤ)
    (hlen : starts.length = db.length)
    (hcontig : uniqueSorted (nonNoise db) =
      (List.range (countsOf db).length).map Int.ofNat)
    (i : ℕ) (hi : i < (countsOf db).length) :
    (countsOf db).getD i 0 = (membersOf starts db (Int.ofNat i)).length := by
  have hlen2 : (countsOf db).length = (uniqueSorted (nonNoise db)).length := by
    unfold countsOf
    rw [List.length_map]
  have hi2 : i < (uniqueSorted (nonNoise db)).length := hlen2 ▸ hi
  rw [List.getD_eq_getElem _ _ hi]
  have hcount : (countsOf db)[i] =
      (nonNoise db).count ((uniqueSorted (nonNoise db))[i]) := by
    unfold countsOf
    rw [List.getElem_map]
  have hlab : (uniqueSorted (nonNoise db))[i] = Int.ofNat i := by
    have := List.getElem_of_eq hcontig hi2
    rw [this, List.getElem_map, List.getElem_range]
  rw [hcount, hlab, count_nonNoise db (Int.ofNat i) (Int.ofNat_nonneg i),
    members_length_eq_count starts db hlen (Int.ofNat i)]

/-- C2 (amended): `favorite_launches(n)` ranks the density-based clusters by
member count descending and takes the top `n` (fewer if fewer clusters
exist), returning in rank order each cluster's centroid computed as the
arithmetic mean of its members' longitude and latitude; points labeled noise
belong to no cluster and contribute to no centroid (removing them changes
nothing, and the noise label is never selected).  Cluster-size ties,
however, are broken in favor of the later-discovered cluster (the higher
label), because `argsort()[::-1]` reverses a stable ascending sort — not in
first-discovered order as claimed.  The final conjunct checks, for
contiguously labelled clusters as DBSCAN produces them, that each ranked
count is exactly the number of member points feeding that centroid. -/
theorem favorite_launches_ranking (n : ℕ) (db : List ℤ) (starts : List (ℚ × ℚ))
    (hlen : starts.length = db.length) :
    (favoriteLaunches n db starts).length =
      min n (uniqueSorted (nonNoise db)).length ∧
    (labelTop db n).Pairwise (fun i j => argsortRel (countsOf db) j i) ∧
    (∀ i ∈ labelTop db n, Int.ofNat i ≠ -1) ∧
    favoriteLaunches n db starts =
      favoriteLaunches n (dropNoise starts db).2 (dropNoise starts db).1 ∧
    (uniqueSorted (nonNoise db) =
        (List.range (countsOf db).length).map Int.ofNat →
      ∀ i ∈ labelTop db n,
        (countsOf db).getD i 0 = (membersOf starts db (Int.ofNat i)).length) := by
  refine ⟨?_, labelTop_pairwise db n, ?_,
    favoriteLaunches_dropNoise n db starts hlen, ?_⟩
  · unfold favoriteLaunches
    rw [List.length_map, labelTop_length]
    unfold countsOf
    rw [List.length_map]
  · intro i _
    exact ofNat_ne_negOne i
  · intro hcontig i hi
    exact countsOf_getD_members starts db hlen hcontig i (labelTop_mem_lt db n i hi)

/-- Witness for C2 (amended) at three points, the middle one noise. -/
theorem favorite_launches_ranking_witness :
    (favoriteLaunches 1 [0, -1, 0] [(1, 2), (5, 5), (3, 4)]).length =
      min 1 (uniqueSorted (nonNoise [0, -1, 0])).length ∧
    (labelTop [0, -1, 0] 1).Pairwise
      (fun i j => argsortRel (countsOf [0, -1, 0]) j i) ∧
    (∀ i ∈ labelTop [0, -1, 0] 1, Int.ofNat i ≠ -1) ∧
    favoriteLaunches 1 [0, -1, 0] [(1, 2), (5, 5), (3, 4)] =
      favoriteLaunches 1 (dropNoise [(1, 2), (5, 5), (3, 4)] [0, -1, 0]).2
        (dropNoise [(1, 2), (5, 5), (3, 4)] [0, -1, 0]).1 ∧
    (uniqueSorted (nonNoise [0, -1, 0]) =
        (List.range (countsOf [0, -1, 0]).length).map Int.ofNat →
      ∀ i ∈ labelTop [0, -1, 0] 1,
        (countsOf [0, -1, 0]).getD i 0 =
          (membersOf [(1, 2), (5, 5), (3, 4)] [0, -1, 0] (Int.ofNat i)).length) :=
  favorite_launches_ranking 1 [0, -1, 0] [(1, 2), (5, 5), (3, 4)] rfl

end StravaStats
